import Mathlib

/-!
# Verification of the e2ee-survey encrypted-artifact core

Shallow embedding of the crypto core (src/shared/crypto.js), the database
operations (database.js) and the worker request handlers (the Cloudflare
worker module) of the e2ee-survey repository.

External collaborators (the nacl secretbox cipher, the argon2 key-derivation
library, SHA-256, JSON serialization and UTF-8 text encoding) are not code of
this repository; they are modelled as fields of a `Prims` structure, and the
theorems take the laws those libraries guarantee as explicit hypotheses.
Randomness (crypto.getRandomValues / nacl.randomBytes) is modelled by passing
an explicit byte stream that each call consumes from the front, in the same
order the source draws random bytes.

Bytes are modelled as `Nat` (each < 256 where it matters), byte strings as
`List Nat`, and JavaScript exceptions as `Except` errors, one constructor per
distinct thrown message.
-/

/-- The external crypto/serialization libraries the repository code calls.
`Value` is the type of JSON-structured survey payloads. -/
structure Prims (Value : Type) where
  /-- argon2.hash with the fixed parameters of deriveKey: password bytes and
  salt to a derived key. -/
  argon2Hash : List Nat → List Nat → List Nat
  /-- nacl.secretbox: message, nonce, key to authenticated ciphertext. -/
  secretbox : List Nat → List Nat → List Nat → List Nat
  /-- nacl.secretbox.open: ciphertext, nonce, key to plaintext, none on
  authentication failure. -/
  secretboxOpen : List Nat → List Nat → List Nat → Option (List Nat)
  /-- crypto.subtle.digest SHA-256 followed by hex formatting, as in
  createKeyHash. -/
  sha256Hex : List Nat → String
  /-- JSON.stringify restricted to Value. -/
  stringify : Value → String
  /-- JSON.parse: none models a thrown SyntaxError. -/
  parseJson : String → Option Value
  /-- TextEncoder().encode. -/
  encodeUtf8 : String → List Nat
  /-- TextDecoder().decode. -/
  decodeUtf8 : List Nat → String

/-- nacl.secretbox.nonceLength. -/
def nonceLength : Nat := 24

/-- deriveKey(password, salt): encodes the password and calls argon2 with the
fixed moderate parameters.  The source performs no validation of the password
or the salt before the call. -/
def deriveKey {V : Type} (P : Prims V) (password : String) (salt : List Nat) :
    List Nat :=
  let passwordBytes := P.encodeUtf8 password
  P.argon2Hash passwordBytes salt

/-- encryptData(data, key): JSON-stringify, encode, draw a fresh nonce of
nonceLength bytes from the random stream, secretbox, and return
nonce ++ ciphertext. -/
def encryptData {V : Type} (P : Prims V) (data : V) (key : List Nat)
    (stream : List Nat) : List Nat :=
  let message := P.encodeUtf8 (P.stringify data)
  let nonce := stream.take nonceLength
  let ciphertext := P.secretbox message nonce key
  nonce ++ ciphertext

/-- The distinct exception messages thrown by the crypto module. -/
inductive CryptoError where
  /-- thrown message: Invalid encrypted data format -/
  | malformedInput
  /-- thrown message: Decryption failed - incorrect password or corrupted data -/
  | decryptionFailed
  /-- thrown message: Invalid password -/
  | invalidPassword
  /-- a SyntaxError thrown by JSON.parse -/
  | parseError
  /-- the password-policy message from validatePassword -/
  | weakPassword (message : String)
  deriving DecidableEq

/-- decryptData(encryptedData, key): reject inputs shorter than one nonce,
split nonce from ciphertext, secretbox.open, decode and JSON.parse. -/
def decryptData {V : Type} (P : Prims V) (encryptedData : List Nat)
    (key : List Nat) : Except CryptoError V :=
  if encryptedData.length < nonceLength then
    .error .malformedInput
  else
    let nonce := encryptedData.take nonceLength
    let ciphertext := encryptedData.drop nonceLength
    match P.secretboxOpen ciphertext nonce key with
    | none => .error .decryptionFailed
    | some decrypted =>
      let jsonString := P.decodeUtf8 decrypted
      match P.parseJson jsonString with
      | none => .error .parseError
      | some value => .ok value

/-- createKeyHash(key): SHA-256 hex digest of the raw key bytes. -/
def createKeyHash {V : Type} (P : Prims V) (key : List Nat) : String :=
  P.sha256Hex key

/-- The 32-symbol Crockford-style alphabet used by generateUlid. -/
def ulidChars : String := "0123456789ABCDEFGHJKMNPQRSTVWXYZ"

/-- chars[i] in generateUlid; an out-of-range index yields the JavaScript
undefined value, modelled by a character outside the alphabet (never reached
when the indexed byte is < 256). -/
def ulidChar (i : Nat) : Char := ulidChars.data.getD i '?'

/-- The ten-iteration timestamp loop of generateUlid: each iteration prepends
chars[temp % 32] and divides temp by 32. -/
def encodeTimeChars (temp : Nat) : Nat → List Char
  | 0 => []
  | n + 1 => encodeTimeChars (temp / 32) n ++ [ulidChar (temp % 32)]

/-- The randomness loop of generateUlid: every byte contributes
chars[byte % 32], and every byte except the last also contributes
chars[byte / 32]. -/
def encodeRandomness : List Nat → List Char
  | [] => []
  | [b] => [ulidChar (b % 32)]
  | b :: c :: rest =>
    ulidChar (b % 32) :: ulidChar (b / 32) :: encodeRandomness (c :: rest)

/-- generateUlid(): encodes Date.now() as ten base-32 characters, appends the
encoding of ten random bytes drawn from the stream, and slices to 26
characters. -/
def generateUlid (timestamp : Nat) (stream : List Nat) : String :=
  let randomness := stream.take 10
  String.mk ((encodeTimeChars timestamp 10 ++ encodeRandomness randomness).take 26)

/-- The result object of validatePassword. -/
structure PasswordValidation where
  valid : Bool
  message : Option String
  deriving DecidableEq

/-- validatePassword(password): at least 8 and at most 128 characters.  The
JavaScript guard !password is subsumed by the length check, since the empty
string has length 0. -/
def validatePassword (password : String) : PasswordValidation :=
  if password.length < 8 then
    { valid := false, message := some "Password must be at least 8 characters long" }
  else if password.length > 128 then
    { valid := false, message := some "Password must be less than 128 characters" }
  else
    { valid := true, message := none }

/-- The package returned by createEncryptedSurvey: the wire-level
EncryptedPackage, with byte arrays as arrays of integers. -/
structure EncryptedSurvey (Value : Type) where
  id : String
  salt : List Nat
  encryptedData : List Nat
  keyHash : String
  createdAt : Nat
  deriving DecidableEq

/-- createEncryptedSurvey(surveyData, password): validate the password, draw a
16-byte salt, derive the key, encrypt (drawing a nonce), hash the key, and
bundle the package (drawing 10 ulid bytes).  The random stream is consumed in
exactly the order the source calls randomBytes: 16 salt bytes, then
nonceLength nonce bytes, then 10 ulid bytes. -/
def createEncryptedSurvey {V : Type} (P : Prims V) (surveyData : V)
    (password : String) (stream : List Nat) (ulidTimestamp : Nat) (now : Nat) :
    Except CryptoError (EncryptedSurvey V) :=
  let validation := validatePassword password
  if !validation.valid then
    .error (.weakPassword (validation.message.getD ""))
  else
    let salt := stream.take 16
    let rest := stream.drop 16
    let key := deriveKey P password salt
    let encryptedData := encryptData P surveyData key rest
    let keyHash := createKeyHash P key
    .ok { id := generateUlid ulidTimestamp (rest.drop nonceLength)
          salt := salt
          encryptedData := encryptedData
          keyHash := keyHash
          createdAt := now }

/-- The object decryptSurvey returns: the decrypted value together with the
derived key. -/
structure DecryptResult (Value : Type) where
  surveyData : Value
  key : List Nat
  deriving DecidableEq

/-- decryptSurvey(encryptedSurvey, password): derive the key from the stored
salt, compare the key hash, and only then decrypt; returns both the survey
data and the derived key, exactly as the source returns surveyData and key. -/
def decryptSurvey {V : Type} (P : Prims V) (encryptedSurvey : EncryptedSurvey V)
    (password : String) : Except CryptoError (DecryptResult V) :=
  let key := deriveKey P password encryptedSurvey.salt
  let computedHash := createKeyHash P key
  if computedHash ≠ encryptedSurvey.keyHash then
    .error .invalidPassword
  else
    match decryptData P encryptedSurvey.encryptedData key with
    | .error e => .error e
    | .ok surveyData => .ok { surveyData := surveyData, key := key }

/-!
## Database layer (database.js)

The D1 store is modelled as in-memory lists of rows; SELECT ... WHERE is
List.find?, DELETE is List.filter, COUNT is List.length.  Row ordering
(ORDER BY) belongs to the storage collaborator and is not modelled.
-/

/-- A row of the surveys table (schema 001 plus the analysis_id column of
migration 002). -/
structure SurveyRow where
  id : String
  analysisId : String
  title : String
  description : String
  questions : List Nat
  salt : List Nat
  createdAt : Nat
  expiresAt : Option Nat
  maxResponses : Option Nat
  creatorKeyHash : String
  deriving DecidableEq

/-- A row of the responses table. -/
structure ResponseRow where
  id : String
  surveyId : String
  answers : List Nat
  submittedAt : Nat
  deriving DecidableEq

/-- The D1 database state. -/
structure DB where
  surveys : List SurveyRow
  responses : List ResponseRow
  deriving DecidableEq

/-- The object getSurvey builds from a row.  The source omits the analysis_id
column here: a lookup keyed by the response-scope id does not expose the
analysis-scope id. -/
structure Survey where
  id : String
  title : String
  description : String
  questions : List Nat
  salt : List Nat
  createdAt : Nat
  expiresAt : Option Nat
  maxResponses : Option Nat
  creatorKeyHash : String
  deriving DecidableEq

/-- getSurvey(db, surveyId): SELECT * FROM surveys WHERE id = ?. -/
def getSurvey (db : DB) (surveyId : String) : Option Survey :=
  match db.surveys.find? (fun row => row.id == surveyId) with
  | none => none
  | some result =>
    some { id := result.id
           title := result.title
           description := result.description
           questions := result.questions
           salt := result.salt
           createdAt := result.createdAt
           expiresAt := result.expiresAt
           maxResponses := result.maxResponses
           creatorKeyHash := result.creatorKeyHash }

/-- The object getSurveyByAnalysisId builds from a row; unlike getSurvey it
includes the analysis-scope id. -/
structure SurveyWithAnalysis where
  id : String
  analysisId : String
  title : String
  description : String
  questions : List Nat
  salt : List Nat
  createdAt : Nat
  expiresAt : Option Nat
  maxResponses : Option Nat
  creatorKeyHash : String
  deriving DecidableEq

/-- getSurveyByAnalysisId(db, analysisId):
SELECT * FROM surveys WHERE analysis_id = ?. -/
def getSurveyByAnalysisId (db : DB) (analysisId : String) :
    Option SurveyWithAnalysis :=
  match db.surveys.find? (fun row => row.analysisId == analysisId) with
  | none => none
  | some survey =>
    some { id := survey.id
           analysisId := survey.analysisId
           title := survey.title
           description := survey.description
           questions := survey.questions
           salt := survey.salt
           createdAt := survey.createdAt
           expiresAt := survey.expiresAt
           maxResponses := survey.maxResponses
           creatorKeyHash := survey.creatorKeyHash }

/-- The distinct exception messages thrown by the database module. -/
inductive DbError where
  /-- thrown message: Survey not found -/
  | surveyNotFound
  /-- thrown message: Unauthorized - incorrect creator key -/
  | unauthorizedIncorrectKey
  /-- thrown message: Unauthorized - only survey creator can delete -/
  | unauthorizedOnlyCreator
  /-- thrown message: Survey not found or already deleted -/
  | alreadyDeleted
  deriving DecidableEq

/-- One element of the list getSurveyResponses returns. -/
structure ResponseOut where
  id : String
  answers : List Nat
  submittedAt : Nat
  deriving DecidableEq

/-- getResponseCount(db, surveyId):
SELECT COUNT(*) FROM responses WHERE survey_id = ?. -/
def getResponseCount (db : DB) (surveyId : String) : Nat :=
  (db.responses.filter (fun r => r.surveyId == surveyId)).length

/-- getSurveyResponses(db, surveyId, creatorKeyHash): the backwards-compatible
creator-only listing keyed by the response-scope survey id.  It verifies only
that the supplied key hash equals the stored creator_key_hash. -/
def getSurveyResponses (db : DB) (surveyId : String) (creatorKeyHash : String) :
    Except DbError (List ResponseOut) :=
  match getSurvey db surveyId with
  | none => .error .surveyNotFound
  | some survey =>
    if survey.creatorKeyHash != creatorKeyHash then
      .error .unauthorizedIncorrectKey
    else
      .ok ((db.responses.filter (fun r => r.surveyId == surveyId)).map
        (fun row => { id := row.id
                      answers := row.answers
                      submittedAt := row.submittedAt }))

/-- getSurveyResponsesByAnalysisId(db, analysisId, creatorKeyHash): the
analysis-scope creator-only listing. -/
def getSurveyResponsesByAnalysisId (db : DB) (analysisId : String)
    (creatorKeyHash : String) : Except DbError (List ResponseOut) :=
  match getSurveyByAnalysisId db analysisId with
  | none => .error .surveyNotFound
  | some survey =>
    if survey.creatorKeyHash != creatorKeyHash then
      .error .unauthorizedIncorrectKey
    else
      .ok ((db.responses.filter (fun r => r.surveyId == survey.id)).map
        (fun response => { id := response.id
                           answers := response.answers
                           submittedAt := response.submittedAt }))

/-- The statistics object getSurveyStats returns. -/
structure SurveyStats where
  surveyId : String
  responseCount : Nat
  createdAt : Nat
  expiresAt : Option Nat
  maxResponses : Option Nat
  isExpired : Bool
  isAtLimit : Bool
  deriving DecidableEq

/-- getSurveyStats(db, surveyId, creatorKeyHash): creator-only statistics
keyed by the response-scope survey id; now stands for Date.now(). -/
def getSurveyStats (db : DB) (surveyId : String) (creatorKeyHash : String)
    (now : Nat) : Except DbError SurveyStats :=
  match getSurvey db surveyId with
  | none => .error .surveyNotFound
  | some survey =>
    if survey.creatorKeyHash != creatorKeyHash then
      .error .unauthorizedIncorrectKey
    else
      let responseCount := getResponseCount db surveyId
      .ok { surveyId := surveyId
            responseCount := responseCount
            createdAt := survey.createdAt
            expiresAt := survey.expiresAt
            maxResponses := survey.maxResponses
            isExpired := match survey.expiresAt with
              | some e => decide (now > e)
              | none => false
            isAtLimit := match survey.maxResponses with
              | some m => decide (responseCount ≥ m)
              | none => false }

/-- The object the delete operations return. -/
structure DeleteResult where
  deletedSurvey : Bool
  deletedResponses : Nat
  deriving DecidableEq

/-- deleteSurvey(db, surveyId, creatorKeyHash): the backwards-compatible
creator-only deletion keyed by the response-scope survey id.  Returns the
database state after the two DELETE statements together with the result
object. -/
def deleteSurvey (db : DB) (surveyId : String) (creatorKeyHash : String) :
    Except DbError (DB × DeleteResult) :=
  match db.surveys.find? (fun row => row.id == surveyId) with
  | none => .error .surveyNotFound
  | some survey =>
    if survey.creatorKeyHash != creatorKeyHash then
      .error .unauthorizedOnlyCreator
    else
      let remainingResponses := db.responses.filter (fun r => !(r.surveyId == surveyId))
      let deletedResponses := db.responses.length - remainingResponses.length
      let remainingSurveys := db.surveys.filter (fun row => !(row.id == surveyId))
      let surveyChanges := db.surveys.length - remainingSurveys.length
      if surveyChanges == 0 then
        .error .alreadyDeleted
      else
        .ok ({ surveys := remainingSurveys, responses := remainingResponses },
             { deletedSurvey := true, deletedResponses := deletedResponses })

/-- deleteSurveyByAnalysisId(db, analysisId, creatorKeyHash): analysis-scope
creator-only deletion; the survey row is located by analysis_id and the
deletes are keyed by the located row id. -/
def deleteSurveyByAnalysisId (db : DB) (analysisId : String)
    (creatorKeyHash : String) : Except DbError (DB × DeleteResult) :=
  match db.surveys.find? (fun row => row.analysisId == analysisId) with
  | none => .error .surveyNotFound
  | some survey =>
    if survey.creatorKeyHash != creatorKeyHash then
      .error .unauthorizedOnlyCreator
    else
      let remainingResponses := db.responses.filter (fun r => !(r.surveyId == survey.id))
      let deletedResponses := db.responses.length - remainingResponses.length
      let remainingSurveys := db.surveys.filter (fun row => !(row.id == survey.id))
      let surveyChanges := db.surveys.length - remainingSurveys.length
      if surveyChanges == 0 then
        .error .alreadyDeleted
      else
        .ok ({ surveys := remainingSurveys, responses := remainingResponses },
             { deletedSurvey := true, deletedResponses := deletedResponses })

/-- Whether an Except carries a value, i.e. the operation completed without
throwing. -/
def exceptOk {E A : Type} : Except E A → Bool
  | .ok _ => true
  | .error _ => false

/-!
## Worker request handlers (the Cloudflare worker module)
-/

/-- The error responses of handleGetSurvey. -/
inductive ApiError where
  /-- HTTP 404: Survey not found -/
  | notFound
  deriving DecidableEq

/-- The data object handleGetSurvey returns to any holder of the
response-scope survey id, with no authentication: it includes the stored
creator_key_hash as the keyHash field. -/
structure SurveyShell where
  id : String
  salt : List Nat
  encryptedData : List Nat
  keyHash : String
  createdAt : Nat
  expiresAt : Option Nat
  maxResponses : Option Nat
  deriving DecidableEq

/-- handleGetSurvey(surveyId, env): unauthenticated read of the encrypted
survey shell keyed by the response-scope id. -/
def handleGetSurvey (db : DB) (surveyId : String) : Except ApiError SurveyShell :=
  match getSurvey db surveyId with
  | none => .error .notFound
  | some survey =>
    .ok { id := survey.id
          salt := survey.salt
          encryptedData := survey.questions
          keyHash := survey.creatorKeyHash
          createdAt := survey.createdAt
          expiresAt := survey.expiresAt
          maxResponses := survey.maxResponses }

/-!
## Server-side identifier generator (generateId in the worker module)
-/

/-- The JavaScript base-36 digit alphabet used by Number.prototype.toString(36). -/
def base36Chars : String := "0123456789abcdefghijklmnopqrstuvwxyz"

/-- Digit lookup for base 36; out of range is unreachable for inputs < 36. -/
def base36Char (i : Nat) : Char := base36Chars.data.getD i '?'

/-- Base-36 digits of a natural number, most significant first; the fuel is
always sufficient because it starts at n + 1 and n shrinks by a factor of 36
per step. -/
def natToBase36Aux : Nat → Nat → List Char
  | 0, _ => []
  | fuel + 1, n =>
    if n < 36 then [base36Char n]
    else natToBase36Aux fuel (n / 36) ++ [base36Char (n % 36)]

/-- Number.prototype.toString(36) for a natural number. -/
def natToBase36 (n : Nat) : String := String.mk (natToBase36Aux (n + 1) n)

/-- String.prototype.toUpperCase restricted to ASCII, which is all toString(36)
produces. -/
def jsToUpperCase (s : String) : String := String.mk (s.data.map Char.toUpper)

/-- String.prototype.substring(0, n). -/
def jsSubstringTo (s : String) (n : Nat) : String := String.mk (s.data.take n)

/-- generateId(): Date.now().toString(36) concatenated with
Math.random().toString(36).substring(2, 15), uppercased and truncated to at
most 26 characters.  fracDigits models the base-36 fractional digits the
runtime prints for the drawn random number (each < 36); substring(2, 15)
keeps at most the first 13 of them. -/
def generateId (timestamp : Nat) (fracDigits : List Nat) : String :=
  let timestampStr := natToBase36 timestamp
  let randomPart := String.mk ((fracDigits.map base36Char).take 13)
  jsSubstringTo (jsToUpperCase (timestampStr ++ randomPart)) 26

/-!
## Concrete instances for witnesses

A small executable instantiation of the external libraries, satisfying the
laws the theorems assume (cipher round-trip, 16-byte authentication overhead,
deterministic digest, JSON round-trip on the values used), so that each
theorem with hypotheses can be evaluated at a concrete input.
-/

/-- A concrete instantiation of the external libraries over Value = Nat. -/
def toyPrims : Prims Nat where
  argon2Hash := fun passwordBytes salt => passwordBytes ++ salt
  secretbox := fun message _nonce _key => message ++ List.replicate 16 0
  secretboxOpen := fun ciphertext _nonce _key =>
    some (ciphertext.take (ciphertext.length - 16))
  sha256Hex := fun key => String.mk (key.map Char.ofNat)
  stringify := fun value => toString value
  parseJson := fun s =>
    match s.data with
    | [] => none
    | cs => if cs.all Char.isDigit then
              some (cs.foldl (fun n c => n * 10 + (c.toNat - 48)) 0)
            else none
  encodeUtf8 := fun s => s.data.map Char.toNat
  decodeUtf8 := fun bytes => String.mk (bytes.map Char.ofNat)

/-- A concrete 16-byte salt. -/
def toySalt : List Nat := List.range 16

/-- The key toyPrims derives from the password password1 and toySalt. -/
def toyKey : List Nat := deriveKey toyPrims "password1" toySalt

/-- A concrete package sealing the value 7 under password1 with toyPrims. -/
def examplePkg : EncryptedSurvey Nat :=
  { id := "01ARZ3NDEKTSV4RRFFQ69G5FAV"
    salt := toySalt
    encryptedData := encryptData toyPrims 7 toyKey (List.range nonceLength)
    createdAt := 0
    keyHash := createKeyHash toyPrims toyKey }

/-- The package produced by sealing the value 7 under password1 from the
random stream 0, 1, ..., 49. -/
def pkgC2 : EncryptedSurvey Nat :=
  match createEncryptedSurvey toyPrims 7 "password1" (List.range 50) 0 0 with
  | .ok pkg => pkg
  | .error _ => { id := "", salt := [], encryptedData := [], keyHash := "", createdAt := 0 }

/-- A package whose salt has the wrong length (3 bytes) and whose stored hash
matches the key toyPrims derives from the empty password. -/
def badSaltPkg : EncryptedSurvey Nat :=
  { id := ""
    salt := [1, 2, 3]
    encryptedData := []
    createdAt := 0
    keyHash := createKeyHash toyPrims (deriveKey toyPrims "" [1, 2, 3]) }

/-- A stored survey row: response-scope id S1, analysis-scope id A1,
creator key fingerprint FP. -/
def exRow : SurveyRow :=
  { id := "S1"
    analysisId := "A1"
    title := ""
    description := ""
    questions := [1, 2, 3]
    salt := List.range 16
    createdAt := 0
    expiresAt := none
    maxResponses := none
    creatorKeyHash := "FP" }

/-- A database holding exRow and one response to it. -/
def exDb : DB :=
  { surveys := [exRow]
    responses := [{ id := "R1", surveyId := "S1", answers := [9], submittedAt := 5 }] }

/-- The Survey object getSurvey builds from exRow. -/
def exSurvey : Survey :=
  { id := "S1"
    title := ""
    description := ""
    questions := [1, 2, 3]
    salt := List.range 16
    createdAt := 0
    expiresAt := none
    maxResponses := none
    creatorKeyHash := "FP" }

/-!
## Helper lemmas
-/

theorem getD_mem_of_lt {l : List Char} {i : Nat} {d : Char} (h : i < l.length) :
    l.getD i d ∈ l := by
  rw [List.getD_eq_getElem?_getD, List.getElem?_eq_getElem h]
  exact List.getElem_mem h

theorem ulidChar_mem {i : Nat} (h : i < 32) : ulidChar i ∈ ulidChars.data := by
  apply getD_mem_of_lt
  have h32 : ulidChars.data.length = 32 := by decide
  omega

theorem encodeTimeChars_length (temp n : Nat) :
    (encodeTimeChars temp n).length = n := by
  induction n generalizing temp with
  | zero => rfl
  | succ m ih => simp [encodeTimeChars, ih]

theorem encodeTimeChars_mem (temp n : Nat) :
    ∀ c ∈ encodeTimeChars temp n, c ∈ ulidChars.data := by
  induction n generalizing temp with
  | zero => intro c hc; simp [encodeTimeChars] at hc
  | succ m ih =>
    intro c hc
    simp only [encodeTimeChars, List.mem_append, List.mem_singleton] at hc
    rcases hc with h | h
    · exact ih _ _ h
    · subst h; exact ulidChar_mem (Nat.mod_lt _ (by omega))

theorem encodeRandomness_length :
    ∀ l : List Nat, (encodeRandomness l).length = 2 * l.length - 1
  | [] => by simp [encodeRandomness]
  | [_] => by simp [encodeRandomness]
  | b :: c :: rest => by
    have ih := encodeRandomness_length (c :: rest)
    simp only [encodeRandomness, List.length_cons] at ih ⊢
    omega

theorem encodeRandomness_mem :
    ∀ l : List Nat, (∀ b ∈ l, b < 256) →
      ∀ ch ∈ encodeRandomness l, ch ∈ ulidChars.data
  | [], _ => by simp [encodeRandomness]
  | [b], _ => by
    intro ch hch
    simp only [encodeRandomness, List.mem_singleton] at hch
    subst hch
    exact ulidChar_mem (Nat.mod_lt _ (by omega))
  | b :: c :: rest, h => by
    intro ch hch
    simp only [encodeRandomness, List.mem_cons] at hch
    rcases hch with h1 | h1 | h1
    · subst h1; exact ulidChar_mem (Nat.mod_lt _ (by omega))
    · subst h1
      have hb : b < 256 := h b (by simp)
      exact ulidChar_mem (by omega)
    · exact encodeRandomness_mem (c :: rest)
        (fun x hx => h x (List.mem_cons_of_mem _ hx)) ch h1

theorem length_filter_lt_of_mem {α : Type} {p : α → Bool} :
    ∀ {l : List α} {a : α}, a ∈ l → p a = false → (l.filter p).length < l.length := by
  intro l
  induction l with
  | nil => intro a ha _; simp at ha
  | cons x t ih =>
    intro a ha hpa
    rcases List.mem_cons.mp ha with rfl | hmem
    · simp only [List.filter_cons, hpa, List.length_cons, Bool.false_eq_true,
        if_false]
      have := List.length_filter_le p t
      omega
    · cases hx : p x with
      | false =>
        simp only [List.filter_cons, hx, List.length_cons, Bool.false_eq_true,
          if_false]
        have := ih hmem hpa
        omega
      | true =>
        simp only [List.filter_cons, hx, List.length_cons, if_true]
        have := ih hmem hpa
        omega

/-- decryptData can fail with the malformed-input, decryption-failed or parse
errors, but never with the invalid-password error: that error belongs to
decryptSurvey alone. -/
theorem decryptData_ne_invalidPassword {V : Type} (P : Prims V)
    (encryptedData key : List Nat) :
    decryptData P encryptedData key ≠ .error .invalidPassword := by
  unfold decryptData
  split
  · simp
  · dsimp only
    split
    · simp
    · split
      · simp
      · simp

/-- The toy secretbox satisfies the cipher round-trip law. -/
theorem toySecretboxOpen_encrypt (m n k : List Nat) :
    toyPrims.secretboxOpen (toyPrims.secretbox m n k) n k = some m := by
  simp only [toyPrims]
  rw [List.length_append, List.length_replicate]
  have h : m.length + 16 - 16 = m.length := by omega
  rw [h, List.take_left' rfl]

/-- The toy secretbox has the 16-byte authentication-tag overhead of nacl. -/
theorem toySecretbox_length (m n k : List Nat) :
    (toyPrims.secretbox m n k).length = m.length + 16 := by
  simp [toyPrims]

/-!
## Claim theorems
-/

/-- C10: for every key and every input byte string strictly shorter than one
nonce length (24 bytes), decryptData fails with the malformed-input error, and
it does so for every possible cipher open function — the length check precedes
the nonce/ciphertext split and the cipher call, so no decryption is ever
attempted. -/
theorem c10_short_input_rejected {V : Type} (P : Prims V)
    (f : List Nat → List Nat → List Nat → Option (List Nat))
    (encryptedData key : List Nat) (h : encryptedData.length < nonceLength) :
    decryptData { P with secretboxOpen := f } encryptedData key =
      .error .malformedInput := by
  simp [decryptData, h]

theorem c10_short_input_rejected_witness :
    ([1, 2, 3] : List Nat).length < nonceLength ∧
    decryptData { toyPrims with secretboxOpen := fun _ _ _ => none } [1, 2, 3] [] =
      .error .malformedInput :=
  ⟨by decide,
   c10_short_input_rejected toyPrims (fun _ _ _ => none) [1, 2, 3] [] (by decide)⟩

/-- C7: sealing draws a fresh nonce from the random source on each call and
prepends it to the output, so two calls whose drawn nonces (the first 24 bytes
of their random streams) differ produce different sealed byte strings, for any
plaintext and key. -/
theorem c7_distinct_nonces_distinct_outputs {V : Type} (P : Prims V)
    (data : V) (key s1 s2 : List Nat)
    (h1 : nonceLength ≤ s1.length) (h2 : nonceLength ≤ s2.length)
    (hne : s1.take nonceLength ≠ s2.take nonceLength) :
    encryptData P data key s1 ≠ encryptData P data key s2 := by
  intro heq
  apply hne
  have e1 : (encryptData P data key s1).take nonceLength = s1.take nonceLength := by
    simp only [encryptData]
    exact List.take_left' (by rw [List.length_take]; omega)
  have e2 : (encryptData P data key s2).take nonceLength = s2.take nonceLength := by
    simp only [encryptData]
    exact List.take_left' (by rw [List.length_take]; omega)
  rw [← e1, ← e2, heq]

theorem c7_distinct_nonces_distinct_outputs_witness :
    (nonceLength ≤ (List.range 30).length ∧
      nonceLength ≤ (List.replicate 30 5).length ∧
      (List.range 30).take nonceLength ≠ (List.replicate 30 5).take nonceLength) ∧
    encryptData toyPrims 0 [] (List.range 30) ≠
      encryptData toyPrims 0 [] (List.replicate 30 5) :=
  ⟨⟨by decide, by decide, by decide⟩,
   c7_distinct_nonces_distinct_outputs toyPrims 0 [] (List.range 30)
     (List.replicate 30 5) (by decide) (by decide) (by decide)⟩

/-- C2: opening an artifact sealed under one password with a second password
whose derived key has a different fingerprint fails with the wrong-password
error.  The conclusion holds for every cipher open function f, so the result
never depends on the cipher layer: the fingerprint comparison happens and
fails before decryptData could consult the cipher, no value is returned, and
no cipher-layer error is raised. -/
theorem c2_wrong_password_fails_closed {V : Type} (P : Prims V)
    (f : List Nat → List Nat → List Nat → Option (List Nat))
    (surveyData : V) (p1 p2 : String) (stream : List Nat)
    (ulidTimestamp now : Nat) (pkg : EncryptedSurvey V)
    (_hseal : createEncryptedSurvey P surveyData p1 stream ulidTimestamp now = .ok pkg)
    (hfp : createKeyHash P (deriveKey P p2 pkg.salt) ≠ pkg.keyHash) :
    decryptSurvey { P with secretboxOpen := f } pkg p2 = .error .invalidPassword := by
  have hfp' : createKeyHash { P with secretboxOpen := f }
      (deriveKey { P with secretboxOpen := f } p2 pkg.salt) ≠ pkg.keyHash := hfp
  simp [decryptSurvey, hfp']

theorem c2_wrong_password_fails_closed_witness :
    (createEncryptedSurvey toyPrims 7 "password1" (List.range 50) 0 0 = .ok pkgC2 ∧
      createKeyHash toyPrims (deriveKey toyPrims "password2" pkgC2.salt) ≠ pkgC2.keyHash) ∧
    decryptSurvey { toyPrims with secretboxOpen := fun _ _ _ => none } pkgC2 "password2" =
      .error .invalidPassword :=
  ⟨⟨rfl, by decide⟩,
   c2_wrong_password_fails_closed toyPrims (fun _ _ _ => none) 7 "password1"
     "password2" (List.range 50) 0 0 pkgC2 rfl (by decide)⟩

/-- C5: the unauthenticated shell read keyed by the response-scope id returns,
for every stored survey, a data object whose keyHash field is exactly the
stored creator key hash — every holder of the response-scope id obtains the
fingerprint that the creator-only authorization checks compare against. -/
theorem c5_shell_exposes_creator_key_hash (db : DB) (surveyId : String)
    (survey : Survey) (h : getSurvey db surveyId = some survey) :
    handleGetSurvey db surveyId =
      .ok { id := survey.id
            salt := survey.salt
            encryptedData := survey.questions
            keyHash := survey.creatorKeyHash
            createdAt := survey.createdAt
            expiresAt := survey.expiresAt
            maxResponses := survey.maxResponses } := by
  simp [handleGetSurvey, h]

theorem c5_shell_exposes_creator_key_hash_witness :
    getSurvey exDb "S1" = some exSurvey ∧
    handleGetSurvey exDb "S1" =
      .ok { id := "S1"
            salt := List.range 16
            encryptedData := [1, 2, 3]
            keyHash := "FP"
            createdAt := 0
            expiresAt := none
            maxResponses := none } :=
  ⟨rfl, c5_shell_exposes_creator_key_hash exDb "S1" exSurvey rfl⟩

/-- C4 (amended): whenever decryptSurvey succeeds, its result carries the
derived key in the key field alongside the survey data — the key is handed
back to the caller, not discarded at the end of the call. -/
theorem c4_open_returns_derived_key {V : Type} (P : Prims V)
    (es : EncryptedSurvey V) (password : String) (r : DecryptResult V)
    (h : decryptSurvey P es password = .ok r) :
    r.key = deriveKey P password es.salt := by
  simp only [decryptSurvey] at h
  split at h
  · cases h
  · split at h
    · cases h
    · cases h
      rfl

/-- C4 counterexample: opening examplePkg with the correct password succeeds
and the result contains the derived key (a nonempty byte string), refuting
the claim that the result contains no key material. -/
theorem c4_counterexample :
    decryptSurvey toyPrims examplePkg "password1" =
      .ok { surveyData := 7, key := toyKey } ∧
    toyKey ≠ [] :=
  ⟨rfl, by decide⟩

theorem c4_open_returns_derived_key_witness :
    decryptSurvey toyPrims examplePkg "password1" =
      .ok { surveyData := 7, key := toyKey } ∧
    ({ surveyData := 7, key := toyKey } : DecryptResult Nat).key =
      deriveKey toyPrims "password1" examplePkg.salt :=
  ⟨rfl, c4_open_returns_derived_key toyPrims examplePkg "password1" _ rfl⟩

/-- C8 (amended): deriveKey performs no validation: for the empty password and
a salt that is not 16 bytes long it still returns the derivation output, and a
package whose stored hash matches the key derived from the empty password is
opened past the fingerprint check — decryptSurvey never reports a
wrong-password (let alone a derivation) failure there. -/
theorem c8_derive_key_no_validation {V : Type} (P : Prims V) (salt : List Nat)
    (_hsalt : salt.length ≠ 16) :
    deriveKey P "" salt = P.argon2Hash (P.encodeUtf8 "") salt ∧
    ∀ es : EncryptedSurvey V, es.salt = salt →
      es.keyHash = createKeyHash P (deriveKey P "" salt) →
      decryptSurvey P es "" ≠ .error .invalidPassword := by
  refine ⟨rfl, ?_⟩
  intro es hes hkh
  have hcond : ¬ (createKeyHash P (deriveKey P "" es.salt) ≠ es.keyHash) := by
    rw [hes, hkh]
    exact fun hne => hne rfl
  simp only [decryptSurvey]
  rw [if_neg hcond]
  cases hd : decryptData P es.encryptedData (deriveKey P "" es.salt) with
  | error e =>
    intro hcontra
    injection hcontra with he
    exact decryptData_ne_invalidPassword P es.encryptedData
      (deriveKey P "" es.salt) (by rw [hd, he])
  | ok v => simp

/-- C8 counterexample: with the empty password and a 3-byte salt, deriveKey
returns a derived key (the argon2 output on those inputs) instead of failing:
the source contains no validation of the password or the salt. -/
theorem c8_counterexample : deriveKey toyPrims "" [1, 2, 3] = [1, 2, 3] := rfl

theorem c8_derive_key_no_validation_witness :
    (([1, 2, 3] : List Nat).length ≠ 16 ∧ badSaltPkg.salt = [1, 2, 3] ∧
      badSaltPkg.keyHash = createKeyHash toyPrims (deriveKey toyPrims "" [1, 2, 3])) ∧
    (deriveKey toyPrims "" [1, 2, 3] =
        toyPrims.argon2Hash (toyPrims.encodeUtf8 "") [1, 2, 3] ∧
      decryptSurvey toyPrims badSaltPkg "" ≠ .error .invalidPassword) :=
  ⟨⟨by decide, rfl, rfl⟩,
   ⟨(c8_derive_key_no_validation toyPrims [1, 2, 3] (by decide)).1,
    (c8_derive_key_no_validation toyPrims [1, 2, 3] (by decide)).2
      badSaltPkg rfl rfl⟩⟩

/-- Round-trip of decryptData over encryptData: with the cipher round-trip
law, a UTF-8 round-trip on the serialized payload and a JSON round-trip on
the payload, decrypting an encryption yields the original value. -/
theorem decryptData_encryptData {V : Type} (P : Prims V) (data : V)
    (key stream : List Nat) (hlen : nonceLength ≤ stream.length)
    (hopen : ∀ m n k, P.secretboxOpen (P.secretbox m n k) n k = some m)
    (hutf : P.decodeUtf8 (P.encodeUtf8 (P.stringify data)) = P.stringify data)
    (hjson : P.parseJson (P.stringify data) = some data) :
    decryptData P (encryptData P data key stream) key = .ok data := by
  have hnl : (stream.take nonceLength).length = nonceLength := by
    rw [List.length_take]; omega
  have htake : (encryptData P data key stream).take nonceLength
      = stream.take nonceLength := by
    simp only [encryptData]
    exact List.take_left' hnl
  have hdrop : (encryptData P data key stream).drop nonceLength
      = P.secretbox (P.encodeUtf8 (P.stringify data)) (stream.take nonceLength) key := by
    simp only [encryptData]
    exact List.drop_left' hnl
  have hlong : ¬ (encryptData P data key stream).length < nonceLength := by
    simp only [encryptData, List.length_append]
    omega
  simp only [decryptData, if_neg hlong]
  rw [htake, hdrop, hopen]
  dsimp only
  rw [hutf, hjson]

/-- C1: for every JSON-serializable structured value and every password meeting
the strength policy, sealing succeeds and opening the sealed artifact with the
same password succeeds with the original value.  The hypotheses are the laws
of the external libraries: the cipher opens its own boxes, UTF-8 decoding
inverts encoding on the serialized payload, and JSON parsing inverts
stringification on the payload (JSON-serializability of the value). -/
theorem c1_seal_open_roundtrip {V : Type} (P : Prims V) (surveyData : V)
    (password : String) (stream : List Nat) (ulidTimestamp now : Nat)
    (hpw : (validatePassword password).valid = true)
    (hstream : 50 ≤ stream.length)
    (hopen : ∀ m n k, P.secretboxOpen (P.secretbox m n k) n k = some m)
    (hutf : P.decodeUtf8 (P.encodeUtf8 (P.stringify surveyData)) = P.stringify surveyData)
    (hjson : P.parseJson (P.stringify surveyData) = some surveyData) :
    ∃ pkg r,
      createEncryptedSurvey P surveyData password stream ulidTimestamp now = .ok pkg ∧
      decryptSurvey P pkg password = .ok r ∧ r.surveyData = surveyData := by
  refine ⟨{ id := generateUlid ulidTimestamp ((stream.drop 16).drop nonceLength)
            salt := stream.take 16
            encryptedData := encryptData P surveyData
              (deriveKey P password (stream.take 16)) (stream.drop 16)
            keyHash := createKeyHash P (deriveKey P password (stream.take 16))
            createdAt := now },
          { surveyData := surveyData
            key := deriveKey P password (stream.take 16) },
          ?_, ?_, rfl⟩
  · simp [createEncryptedSurvey, hpw]
  · have hlen : nonceLength ≤ (stream.drop 16).length := by
      rw [List.length_drop]
      have h24 : nonceLength = 24 := rfl
      omega
    simp only [decryptSurvey]
    rw [if_neg (fun hne => hne rfl)]
    rw [decryptData_encryptData P surveyData (deriveKey P password (stream.take 16))
      (stream.drop 16) hlen hopen hutf hjson]

theorem c1_seal_open_roundtrip_witness :
    ((validatePassword "password1").valid = true ∧ 50 ≤ (List.range 50).length) ∧
    ∃ pkg r,
      createEncryptedSurvey toyPrims 7 "password1" (List.range 50) 0 0 = .ok pkg ∧
      decryptSurvey toyPrims pkg "password1" = .ok r ∧ r.surveyData = 7 :=
  ⟨⟨by decide, by decide⟩,
   c1_seal_open_roundtrip toyPrims 7 "password1" (List.range 50) 0 0
     (by decide) (by decide) toySecretboxOpen_encrypt (by decide) (by decide)⟩

/-- C9: for every structured value and policy-valid password, sealing succeeds
and the produced package has a 16-byte salt, an encrypted-data field of length
24 (nonce) + serialized-plaintext length + 16 (authentication tag), and a
fingerprint that is exactly the digest of the derived key (in particular it is
present, never null).  The hypothesis on the cipher is the nacl length law:
secretbox output is message length + 16. -/
theorem c9_package_shape {V : Type} (P : Prims V) (surveyData : V)
    (password : String) (stream : List Nat) (ulidTimestamp now : Nat)
    (hpw : (validatePassword password).valid = true)
    (hstream : 50 ≤ stream.length)
    (hboxlen : ∀ m n k, (P.secretbox m n k).length = m.length + 16) :
    ∃ pkg,
      createEncryptedSurvey P surveyData password stream ulidTimestamp now = .ok pkg ∧
      pkg.salt.length = 16 ∧
      pkg.encryptedData.length =
        nonceLength + (P.encodeUtf8 (P.stringify surveyData)).length + 16 ∧
      pkg.keyHash = createKeyHash P (deriveKey P password pkg.salt) := by
  refine ⟨{ id := generateUlid ulidTimestamp ((stream.drop 16).drop nonceLength)
            salt := stream.take 16
            encryptedData := encryptData P surveyData
              (deriveKey P password (stream.take 16)) (stream.drop 16)
            keyHash := createKeyHash P (deriveKey P password (stream.take 16))
            createdAt := now },
          ?_, ?_, ?_, rfl⟩
  · simp [createEncryptedSurvey, hpw]
  · rw [List.length_take]
    omega
  · simp only [encryptData, List.length_append, List.length_take, List.length_drop,
      hboxlen]
    have h24 : nonceLength = 24 := rfl
    omega

theorem c9_package_shape_witness :
    ((validatePassword "password1").valid = true ∧ 50 ≤ (List.range 50).length) ∧
    ∃ pkg,
      createEncryptedSurvey toyPrims 7 "password1" (List.range 50) 0 0 = .ok pkg ∧
      pkg.salt.length = 16 ∧
      pkg.encryptedData.length =
        nonceLength + (toyPrims.encodeUtf8 (toyPrims.stringify 7)).length + 16 ∧
      pkg.keyHash = createKeyHash toyPrims (deriveKey toyPrims "password1" pkg.salt) :=
  ⟨⟨by decide, by decide⟩,
   c9_package_shape toyPrims 7 "password1" (List.range 50) 0 0
     (by decide) (by decide) toySecretbox_length⟩

/-- The backwards-compatible response listing succeeds exactly when the survey
row keyed by the response-scope id exists and the supplied fingerprint equals
its stored creator key hash. -/
theorem getSurveyResponses_ok_iff (db : DB) (sid kh : String) :
    exceptOk (getSurveyResponses db sid kh) = true ↔
      ∃ s, getSurvey db sid = some s ∧ s.creatorKeyHash = kh := by
  cases hfind : db.surveys.find? (fun row => row.id == sid) with
  | none =>
    simp [getSurveyResponses, getSurvey, hfind, exceptOk]
  | some row =>
    simp only [getSurveyResponses, getSurvey, hfind]
    by_cases hk : row.creatorKeyHash = kh
    · simp [hk, exceptOk]
    · simp [hk, exceptOk, bne_iff_ne]

/-- The backwards-compatible statistics read succeeds exactly when the survey
row keyed by the response-scope id exists and the supplied fingerprint equals
its stored creator key hash. -/
theorem getSurveyStats_ok_iff (db : DB) (sid kh : String) (now : Nat) :
    exceptOk (getSurveyStats db sid kh now) = true ↔
      ∃ s, getSurvey db sid = some s ∧ s.creatorKeyHash = kh := by
  cases hfind : db.surveys.find? (fun row => row.id == sid) with
  | none =>
    simp [getSurveyStats, getSurvey, hfind, exceptOk]
  | some row =>
    simp only [getSurveyStats, getSurvey, hfind]
    by_cases hk : row.creatorKeyHash = kh
    · simp [hk, exceptOk]
    · simp [hk, exceptOk, bne_iff_ne]

/-- The analysis-scope response listing succeeds exactly when the survey row
keyed by the analysis-scope id exists and the supplied fingerprint equals its
stored creator key hash. -/
theorem getSurveyResponsesByAnalysisId_ok_iff (db : DB) (aid kh : String) :
    exceptOk (getSurveyResponsesByAnalysisId db aid kh) = true ↔
      ∃ s, getSurveyByAnalysisId db aid = some s ∧ s.creatorKeyHash = kh := by
  cases hfind : db.surveys.find? (fun row => row.analysisId == aid) with
  | none =>
    simp [getSurveyResponsesByAnalysisId, getSurveyByAnalysisId, hfind, exceptOk]
  | some row =>
    simp only [getSurveyResponsesByAnalysisId, getSurveyByAnalysisId, hfind]
    by_cases hk : row.creatorKeyHash = kh
    · simp [hk, exceptOk]
    · simp [hk, exceptOk, bne_iff_ne]

/-- The backwards-compatible deletion succeeds exactly when the survey row
keyed by the response-scope id exists and the supplied fingerprint equals its
stored creator key hash. -/
theorem deleteSurvey_ok_iff (db : DB) (sid kh : String) :
    exceptOk (deleteSurvey db sid kh) = true ↔
      ∃ s, getSurvey db sid = some s ∧ s.creatorKeyHash = kh := by
  cases hfind : db.surveys.find? (fun row => row.id == sid) with
  | none =>
    simp [deleteSurvey, getSurvey, hfind, exceptOk]
  | some row =>
    have hmem : row ∈ db.surveys := List.mem_of_find?_eq_some hfind
    have hid := List.find?_some hfind
    simp only [] at hid
    have hlt : (db.surveys.filter (fun r => !(r.id == sid))).length
        < db.surveys.length :=
      length_filter_lt_of_mem hmem (by simp [hid])
    have hch : ¬ (db.surveys.length
        - (db.surveys.filter (fun r => !(r.id == sid))).length = 0) := by
      omega
    simp only [deleteSurvey, getSurvey, hfind]
    by_cases hk : row.creatorKeyHash = kh
    · simp [hk, exceptOk, hch]
    · simp [hk, exceptOk, bne_iff_ne]

/-- The analysis-scope deletion succeeds exactly when the survey row keyed by
the analysis-scope id exists and the supplied fingerprint equals its stored
creator key hash. -/
theorem deleteSurveyByAnalysisId_ok_iff (db : DB) (aid kh : String) :
    exceptOk (deleteSurveyByAnalysisId db aid kh) = true ↔
      ∃ s, getSurveyByAnalysisId db aid = some s ∧ s.creatorKeyHash = kh := by
  cases hfind : db.surveys.find? (fun row => row.analysisId == aid) with
  | none =>
    simp [deleteSurveyByAnalysisId, getSurveyByAnalysisId, hfind, exceptOk]
  | some row =>
    have hmem : row ∈ db.surveys := List.mem_of_find?_eq_some hfind
    have hrow : row ∈ db.surveys ∧ (row.id == row.id) = true := ⟨hmem, by simp⟩
    have hlt : (db.surveys.filter (fun r => !(r.id == row.id))).length
        < db.surveys.length :=
      length_filter_lt_of_mem hmem (by simp)
    have hch : ¬ (db.surveys.length
        - (db.surveys.filter (fun r => !(r.id == row.id))).length = 0) := by
      omega
    simp only [deleteSurveyByAnalysisId, getSurveyByAnalysisId, hfind]
    by_cases hk : row.creatorKeyHash = kh
    · simp [hk, exceptOk, hch]
    · simp [hk, exceptOk, bne_iff_ne]

/-- C3 (amended): every creator-only operation — listing responses, reading
stats, deleting — succeeds exactly when the survey row its identifier locates
exists and the supplied fingerprint equals the stored creator key hash.  The
fingerprint check is always enforced, but possession of the analysis-scope id
is not required: the backwards-compatible routes keyed by the response-scope
id succeed under the very same fingerprint condition. -/
theorem c3_creator_ops_require_fingerprint_only (db : DB) (sid aid kh : String)
    (now : Nat) :
    (exceptOk (getSurveyResponses db sid kh) = true ↔
      ∃ s, getSurvey db sid = some s ∧ s.creatorKeyHash = kh) ∧
    (exceptOk (getSurveyStats db sid kh now) = true ↔
      ∃ s, getSurvey db sid = some s ∧ s.creatorKeyHash = kh) ∧
    (exceptOk (deleteSurvey db sid kh) = true ↔
      ∃ s, getSurvey db sid = some s ∧ s.creatorKeyHash = kh) ∧
    (exceptOk (getSurveyResponsesByAnalysisId db aid kh) = true ↔
      ∃ s, getSurveyByAnalysisId db aid = some s ∧ s.creatorKeyHash = kh) ∧
    (exceptOk (deleteSurveyByAnalysisId db aid kh) = true ↔
      ∃ s, getSurveyByAnalysisId db aid = some s ∧ s.creatorKeyHash = kh) :=
  ⟨getSurveyResponses_ok_iff db sid kh,
   getSurveyStats_ok_iff db sid kh now,
   deleteSurvey_ok_iff db sid kh,
   getSurveyResponsesByAnalysisId_ok_iff db aid kh,
   deleteSurveyByAnalysisId_ok_iff db aid kh⟩

/-- C3 counterexample: in exDb the stored survey has response-scope id S1 and
analysis-scope id A1; a creator-only listing and a creator-only deletion that
bear only the response-scope id S1 together with the (publicly served, see C5)
fingerprint FP both succeed instead of being rejected. -/
theorem c3_counterexample :
    exRow.id = "S1" ∧ exRow.analysisId = "A1" ∧
    getSurveyResponses exDb "S1" "FP" =
      .ok [{ id := "R1", answers := [9], submittedAt := 5 }] ∧
    deleteSurvey exDb "S1" "FP" =
      .ok ({ surveys := [], responses := [] },
           { deletedSurvey := true, deletedResponses := 1 }) :=
  ⟨rfl, rfl, rfl, rfl⟩

/-- C6 (amended): every identifier produced by generateUlid (for any timestamp
and a random stream of at least ten bytes) is exactly 26 characters, each
drawn from the 32-symbol alphabet of the 10 digits and the 22 letters
excluding I, L, O and U; the server-side generateId, by contrast, only
guarantees at most 26 characters. -/
theorem c6_identifier_format (timestamp : Nat) (stream fracDigits : List Nat)
    (hlen : 10 ≤ stream.length) (hbytes : ∀ b ∈ stream.take 10, b < 256) :
    ((generateUlid timestamp stream).length = 26 ∧
      ∀ c ∈ (generateUlid timestamp stream).data, c ∈ ulidChars.data) ∧
    (generateId timestamp fracDigits).length ≤ 26 := by
  refine ⟨⟨?_, ?_⟩, ?_⟩
  · show ((encodeTimeChars timestamp 10
        ++ encodeRandomness (stream.take 10)).take 26).length = 26
    rw [List.length_take, List.length_append, encodeTimeChars_length,
      encodeRandomness_length]
    have h10 : (stream.take 10).length = 10 := by
      rw [List.length_take]; omega
    rw [h10]
    omega
  · intro c hc
    have hc2 : c ∈ encodeTimeChars timestamp 10 ++ encodeRandomness (stream.take 10) := by
      have hdata : (generateUlid timestamp stream).data =
          (encodeTimeChars timestamp 10 ++ encodeRandomness (stream.take 10)).take 26 := rfl
      rw [hdata] at hc
      exact List.take_subset _ _ hc
    rcases List.mem_append.mp hc2 with h | h
    · exact encodeTimeChars_mem timestamp 10 c h
    · exact encodeRandomness_mem _ hbytes c h
  · show ((jsToUpperCase (natToBase36 timestamp
        ++ String.mk ((fracDigits.map base36Char).take 13))).data.take 26).length ≤ 26
    rw [List.length_take]
    omega

theorem c6_identifier_format_witness :
    (10 ≤ (List.range 10).length ∧ ∀ b ∈ (List.range 10).take 10, b < 256) ∧
    (((generateUlid 0 (List.range 10)).length = 26 ∧
        ∀ c ∈ (generateUlid 0 (List.range 10)).data, c ∈ ulidChars.data) ∧
      (generateId 0 []).length ≤ 26) :=
  ⟨⟨by decide, by decide⟩,
   c6_identifier_format 0 (List.range 10) [] (by decide) (by decide)⟩

/-- C6 counterexample: at the server, generateId called at the timestamp
1760227200000 ms (October 2025) with thirteen random base-36 fractional
digits all equal to 18 (the digit i) returns a 21-character string that
contains the letter I — neither exactly 26 characters long nor confined to
the 32-symbol alphabet that excludes I, L, O and U. -/
theorem c6_counterexample :
    (generateId 1760227200000 (List.replicate 13 18)).length = 21 ∧
    'I' ∈ (generateId 1760227200000 (List.replicate 13 18)).data ∧
    'I' ∉ ulidChars.data :=
  ⟨by decide, by decide, by decide⟩
